import Mathlib

/-!
Verification development for the vibe-coding-logger repository
(package `logger`: `pkg/logger/logger.go`, the data model in the
`types` source, the system-info collector, and the error/retry/recovery
handlers).  The Go code is shallowly embedded: Go maps
(`map[string]interface{}`) become association lists with
overwrite-on-assign semantics, the mutable `fields` map of a logger
lives in an explicit heap (`Store`) so that copy-versus-share questions
on `clone` are expressible, Go `error` interface values become
`Option GoErrVal` (with `none` the nil interface), and panics of the
embedded code become `Except` errors.  Effects of a logging call - lock
acquisition, writer invocations, diagnostic reports - are recorded as an
event trace so that fan-out and locking claims are statements about
traces.
-/

namespace VibeLog

/-- Model of the Go `LogLevel` enumeration (`DEBUG < INFO < WARN < ERROR <
FATAL`), declared as `type LogLevel int` with iota constants 0..4. -/
inductive LogLevel where
  | DEBUG
  | INFO
  | WARN
  | ERROR
  | FATAL
deriving DecidableEq, Repr

/-- Numeric value of a level, matching the Go iota constants. -/
def LogLevel.toNat : LogLevel → Nat
  | .DEBUG => 0
  | .INFO => 1
  | .WARN => 2
  | .ERROR => 3
  | .FATAL => 4

/-- Model of a Go `interface{}` value as it is used by the logger: nil,
strings, integers, booleans, `time.Duration` values (int64 nanoseconds),
nested `map[string]interface{}` literals, and `*ErrorInfo` records (the
struct from the types source, flattened into the constructor: message,
dynamic type string, code, stack, retryable, resolution, context). -/
inductive GoValue where
  | vNull
  | vStr (s : String)
  | vInt (n : Int)
  | vBool (b : Bool)
  | vDur (n : Int)
  | vMap (m : List (String × GoValue))
  | vErr (message tyName code stack : String) (retryable : Bool)
      (resolution : String) (ctx : List (String × GoValue))

/-- A Go `map[string]interface{}` as an association list.  All maps built
by the embedded code keep at most one entry per key (`mapSet` overwrites
in place), mirroring real Go map semantics. -/
abbrev GoMap := List (String × GoValue)

/-- Go map assignment `m[k] = v`: overwrite the entry for `k` if present,
otherwise append it. -/
def mapSet : GoMap → String → GoValue → GoMap
  | [], k, v => [(k, v)]
  | (k1, v1) :: rest, k, v =>
      if k1 = k then (k, v) :: rest else (k1, v1) :: mapSet rest k v

/-- Go map lookup `m[k]` returning the first entry for `k`. -/
def mapGet : GoMap → String → Option GoValue
  | [], _ => none
  | (k1, v1) :: rest, k => if k1 = k then some v1 else mapGet rest k

/-- Model of the `copyFields` loop of `logger.go` (and of the copy loop
inside `clone`): range over the source map and assign every pair into a
fresh empty map. -/
def copyMap (m : GoMap) : GoMap :=
  m.foldl (fun acc kv => mapSet acc kv.1 kv.2) []

/-- Wellformedness of a Go map image: keys occur at most once (true of
every real Go map). -/
def KeysNodup (m : GoMap) : Prop := (m.map Prod.fst).Nodup

instance (m : GoMap) : Decidable (KeysNodup m) := by
  unfold KeysNodup; infer_instance

example : mapGet (mapSet (mapSet [] "a" (.vInt 1)) "a" (.vInt 2)) "a"
    = some (.vInt 2) := rfl

/-- Model of the `copyTags` helper of `logger.go`: a fresh slice holding
the same strings; a Go slice of strings copied element by element is the
same list of strings. -/
def copyTags (tags : List String) : List String := tags

/-- A non-nil Go `error` value: its `Error()` message and its dynamic
type string as printed by the `%T` format verb. -/
structure GoErrVal where
  msg : String
  tyName : String
deriving DecidableEq, Repr

/-- A Go `error` interface value; `none` is the nil interface. -/
abbrev GoErr := Option GoErrVal

/-- Message of the Go runtime fault raised when a method is invoked on a
nil interface value. -/
def nilDerefPanic : String :=
  "runtime error: invalid memory address or nil pointer dereference"

/-- Model of evaluating `err.Error()` on a Go `error` interface value:
a nil interface panics with a nil-pointer dereference, a non-nil error
yields its message.  Panics of the embedded code are `Except.error`. -/
def errMessage : GoErr → Except String String
  | none => .error nilDerefPanic
  | some e => .ok e.msg

/-- Model of `fmt.Sprintf` with the `%T` verb on an error value (total:
printing the dynamic type of a nil interface yields the empty-type
marker, it does not panic). -/
def errTypeName : GoErr → String
  | none => "<nil>"
  | some e => e.tyName

/-- The `Field` struct of the types source: one key/value pair. -/
structure Field where
  key : String
  val : GoValue

/-- Field constructor `String(key, value string)` from the types source. -/
def strField (key value : String) : Field := ⟨key, .vStr value⟩

/-- Field constructor `Int(key string, value int)` from the types source. -/
def intField (key : String) (value : Int) : Field := ⟨key, .vInt value⟩

/-- Field constructor `Duration(key string, value time.Duration)` from the
types source. -/
def durField (key : String) (value : Int) : Field := ⟨key, .vDur value⟩

/-- Field constructor `Any(key string, value interface{})` from the types
source. -/
def anyField (key : String) (value : GoValue) : Field := ⟨key, value⟩

/-- Field constructor `Error(key string, err error)` from the types
source: it evaluates `err.Error()` with no nil check, so a nil error
argument panics. -/
def errField (key : String) (err : GoErr) : Except String Field := do
  let m ← errMessage err
  return ⟨key, .vStr m⟩

/-- The `Entry` struct of the types source.  `action` models the
`ActionType` string (zero value `""`), `duration` the `time.Duration`
field (zero value `0`), `input`/`output` the possibly-nil maps (`none`
is the nil map), and `id`/`timestamp` the uuid string and creation
instant supplied by the environment. -/
structure Entry where
  id : String
  timestamp : Nat
  level : LogLevel
  action : String
  operation : String
  input : Option GoMap
  output : Option GoMap
  errorInfo : Option GoValue
  duration : Int
  context : GoMap
  tags : List String
  traceID : String
  spanID : String
  parentID : String
  metadata : GoMap
  systemInfo : Option GoMap
  runtimeInfo : Option GoMap

/-- The heap of live Go maps: the `fields` map of every logger is a cell
in this store, so that sharing versus copying on `clone` is observable. -/
structure Store where
  cells : List GoMap

/-- The empty heap. -/
def Store.empty : Store := ⟨[]⟩

/-- Allocate a fresh map cell (`make(map[string]interface{})` plus filling
it); returns the new store and the reference to the new cell. -/
def Store.alloc (s : Store) (m : GoMap) : Store × Nat :=
  (⟨s.cells ++ [m]⟩, s.cells.length)

/-- Read a map cell. -/
def Store.read (s : Store) (r : Nat) : GoMap := s.cells.getD r []

/-- Overwrite a map cell (an assignment through a shared map reference). -/
def Store.write (s : Store) (r : Nat) (m : GoMap) : Store :=
  ⟨s.cells.set r m⟩

/-- A registered writer, reduced to its observable `Write` contract:
for each entry it either succeeds (`none`) or fails with an error
message (`some msg`). -/
structure GoWriter where
  write : Entry → Option String

/-- A writer whose `Write` always succeeds (a recording writer). -/
def okWriter : GoWriter := ⟨fun _ => none⟩

/-- A writer whose `Write` always fails. -/
def failWriter : GoWriter := ⟨fun _ => some "write failed"⟩

/-- Observable events of one logging call, in program order: read-lock
acquisition and release (`l.mu.RLock()` / the deferred `l.mu.RUnlock()`),
each `writer.Write(entry)` invocation with its result, and the
`fmt.Printf` diagnostic report emitted when a writer fails. -/
inductive LogEvent where
  | rlockAcquire
  | rlockRelease
  | writeCall (idx : Nat) (e : Entry) (result : Option String)
  | writeReport (idx : Nat) (msg : String)

/-- Model of the fan-out loop of `writeEntry` in `logger.go`, producing
the event trace: writers are invoked in registration order, a failing
`Write` is reported via `fmt.Printf` and iteration continues; nothing is
returned to the caller. -/
def writeEntryAux (e : Entry) : Nat → List GoWriter → List LogEvent
  | _, [] => []
  | i, w :: ws =>
      (match w.write e with
        | some err => [.writeCall i e (some err), .writeReport i err]
        | none => [.writeCall i e none]) ++ writeEntryAux e (i + 1) ws

/-- The `writeEntry` method of `logger.go`. -/
def writeEntry (writers : List GoWriter) (e : Entry) : List LogEvent :=
  writeEntryAux e 0 writers

/-- Environment inputs consumed by one call of the internal `log`
routine: the uuid produced by `uuid.New().String()`, the instant
returned by `time.Now()`, the maps returned by the system-info
collector's `GetCompactSystemInfo` and `GetRuntimeStats`, the best-effort
`runtime.Caller` answer (`none` when unavailable; otherwise the
`file:line` string and the optional function name), and the best-effort
stack trace used by `getStackTrace`. -/
structure LogEnv where
  newId : String
  now : Nat
  sysInfo : GoMap
  runtimeStats : GoMap
  caller : Option (String × Option String)
  stack : String

/-- A fixed environment for concrete scenarios. -/
def exEnv : LogEnv :=
  { newId := "id-1", now := 0, sysInfo := [], runtimeStats := [],
    caller := none, stack := "" }

/-- The `vibeLogger` struct of `logger.go`.  The mutable `fields` map is
held by reference into the `Store`; `tags` and the scalar configuration
travel by value; the `context.Context` member is an opaque token. -/
structure VibeLogger where
  level : LogLevel
  writers : List GoWriter
  fields : Nat
  tags : List String
  traceID : String
  spanID : String
  parentID : String
  ctxTok : Nat
  includeSystemInfo : Bool
  includeRuntimeInfo : Bool

/-- The `New` constructor of `logger.go`: allocates an empty fields map,
no writers, no tags, system info on, runtime info off. -/
def New (s : Store) (level : LogLevel) : Store × VibeLogger :=
  let (s1, r) := s.alloc []
  (s1,
    { level := level, writers := [], fields := r, tags := [],
      traceID := "", spanID := "", parentID := "", ctxTok := 0,
      includeSystemInfo := true, includeRuntimeInfo := false })

/-- The `AddWriter` method: appends a writer to the registration list
(an in-place mutation of the receiver, modeled functionally since no
claim aliases the logger object itself). -/
def VibeLogger.AddWriter (l : VibeLogger) (w : GoWriter) : VibeLogger :=
  { l with writers := l.writers ++ [w] }

/-- The `SetLevel` method. -/
def VibeLogger.SetLevel (l : VibeLogger) (level : LogLevel) : VibeLogger :=
  { l with level := level }

/-- The `copyFields` method of `logger.go`: a fresh map holding the
receiver's accumulated fields. -/
def VibeLogger.copyFields (s : Store) (l : VibeLogger) : GoMap :=
  copyMap (s.read l.fields)

/-- The `clone` method of `logger.go`: a new logger value sharing the
writer list, formatter, collector and scalar state, with the `fields`
map deep-copied into a freshly allocated cell and the `tags` slice
copied by value. -/
def VibeLogger.clone (s : Store) (l : VibeLogger) : Store × VibeLogger :=
  let (s1, r) := s.alloc (copyMap (s.read l.fields))
  (s1, { l with fields := r, tags := copyTags l.tags })

/-- The `WithField` method: clone, then assign the new key into the
clone's fields map. -/
def VibeLogger.WithField (s : Store) (l : VibeLogger) (key : String)
    (value : GoValue) : Store × VibeLogger :=
  let (s1, nl) := l.clone s
  (s1.write nl.fields (mapSet (s1.read nl.fields) key value), nl)

/-- The `WithFields` method: clone, then assign every pair of the given
map into the clone's fields map. -/
def VibeLogger.WithFields (s : Store) (l : VibeLogger) (fields : GoMap) :
    Store × VibeLogger :=
  let (s1, nl) := l.clone s
  (s1.write nl.fields
    (fields.foldl (fun acc kv => mapSet acc kv.1 kv.2) (s1.read nl.fields)),
   nl)

/-- The `WithTag` method: clone, then append one tag. -/
def VibeLogger.WithTag (s : Store) (l : VibeLogger) (tag : String) :
    Store × VibeLogger :=
  let (s1, nl) := l.clone s
  (s1, { nl with tags := nl.tags ++ [tag] })

/-- The `WithTags` method: clone, then append all given tags. -/
def VibeLogger.WithTags (s : Store) (l : VibeLogger) (tags : List String) :
    Store × VibeLogger :=
  let (s1, nl) := l.clone s
  (s1, { nl with tags := nl.tags ++ tags })

/-- The `WithTraceID` method: clone, then set the trace id. -/
def VibeLogger.WithTraceID (s : Store) (l : VibeLogger) (traceID : String) :
    Store × VibeLogger :=
  let (s1, nl) := l.clone s
  (s1, { nl with traceID := traceID })

/-- The `WithSpanID` method: clone, then set the span id. -/
def VibeLogger.WithSpanID (s : Store) (l : VibeLogger) (spanID : String) :
    Store × VibeLogger :=
  let (s1, nl) := l.clone s
  (s1, { nl with spanID := spanID })

/-- The `WithParentID` method: clone, then set the parent id. -/
def VibeLogger.WithParentID (s : Store) (l : VibeLogger) (parentID : String) :
    Store × VibeLogger :=
  let (s1, nl) := l.clone s
  (s1, { nl with parentID := parentID })

/-- The `WithContext` method: clone, then set the context token. -/
def VibeLogger.WithContext (s : Store) (l : VibeLogger) (tok : Nat) :
    Store × VibeLogger :=
  let (s1, nl) := l.clone s
  (s1, { nl with ctxTok := tok })

/-- The internal `log` routine of `logger.go`, in source order: take the
read lock; build the entry (fresh id and timestamp, context from
`copyFields`, tags from `copyTags`, trace identifiers verbatim, empty
metadata); attach system and runtime info when enabled; overlay the
per-call fields onto the context (`entry.Context[field.Key] =
field.Value`); attach best-effort caller metadata; fan out via
`writeEntry`; release the read lock on return (the deferred `RUnlock`
runs after `writeEntry`).  Returns the dispatched entry and the event
trace. -/
def VibeLogger.log (s : Store) (l : VibeLogger) (env : LogEnv)
    (level : LogLevel) (msg : String) (fields : List Field) :
    Entry × List LogEvent :=
  let e0 : Entry :=
    { id := env.newId, timestamp := env.now, level := level, action := "",
      operation := msg, input := none, output := none, errorInfo := none,
      duration := 0, context := l.copyFields s, tags := copyTags l.tags,
      traceID := l.traceID, spanID := l.spanID, parentID := l.parentID,
      metadata := [],
      systemInfo := if l.includeSystemInfo then some env.sysInfo else none,
      runtimeInfo :=
        if l.includeRuntimeInfo then some env.runtimeStats else none }
  let e1 := { e0 with
    context := fields.foldl (fun m f => mapSet m f.key f.val) e0.context }
  let e2 := match env.caller with
    | none => e1
    | some (loc, fn) =>
        { e1 with metadata :=
            match fn with
            | none => mapSet e1.metadata "caller" (.vStr loc)
            | some name =>
                mapSet (mapSet e1.metadata "caller" (.vStr loc))
                  "function" (.vStr name) }
  (e2, [.rlockAcquire] ++ writeEntry l.writers e2 ++ [.rlockRelease])

/-- The `Debug` method: calls `log` only when `l.level <= DEBUG`. -/
def VibeLogger.Debug (s : Store) (l : VibeLogger) (env : LogEnv)
    (msg : String) (fields : List Field) : Option Entry × List LogEvent :=
  if l.level.toNat ≤ LogLevel.DEBUG.toNat then
    let (e, evs) := l.log s env .DEBUG msg fields
    (some e, evs)
  else (none, [])

/-- The `Info` method: calls `log` only when `l.level <= INFO`. -/
def VibeLogger.Info (s : Store) (l : VibeLogger) (env : LogEnv)
    (msg : String) (fields : List Field) : Option Entry × List LogEvent :=
  if l.level.toNat ≤ LogLevel.INFO.toNat then
    let (e, evs) := l.log s env .INFO msg fields
    (some e, evs)
  else (none, [])

/-- The `Warn` method: calls `log` only when `l.level <= WARN`. -/
def VibeLogger.Warn (s : Store) (l : VibeLogger) (env : LogEnv)
    (msg : String) (fields : List Field) : Option Entry × List LogEvent :=
  if l.level.toNat ≤ LogLevel.WARN.toNat then
    let (e, evs) := l.log s env .WARN msg fields
    (some e, evs)
  else (none, [])

/-- The `Error` method: calls `log` only when `l.level <= ERROR`. -/
def VibeLogger.Error (s : Store) (l : VibeLogger) (env : LogEnv)
    (msg : String) (fields : List Field) : Option Entry × List LogEvent :=
  if l.level.toNat ≤ LogLevel.ERROR.toNat then
    let (e, evs) := l.log s env .ERROR msg fields
    (some e, evs)
  else (none, [])

/-- The `Fatal` method: calls `log` only when `l.level <= FATAL`. -/
def VibeLogger.Fatal (s : Store) (l : VibeLogger) (env : LogEnv)
    (msg : String) (fields : List Field) : Option Entry × List LogEvent :=
  if l.level.toNat ≤ LogLevel.FATAL.toNat then
    let (e, evs) := l.log s env .FATAL msg fields
    (some e, evs)
  else (none, [])

/-- The `OperationTracker` struct of the types source (the owning-logger
back reference and the weak parent pointer are dropped: the claims under
verification call the logger methods directly and never traverse them). -/
structure OperationTracker where
  id : String
  operation : String
  startTime : Nat
  input : GoMap
  context : GoMap

/-- The `StartOperation` method of `logger.go`: build a tracker
(fresh id, now as start time, the caller's input map by reference, the
logger's fields snapshot as context), then call `log` at INFO with the
action, operation id and input carried as per-call context fields.  Note
that `log` is called directly: no level check guards this dispatch. -/
def VibeLogger.StartOperation (s : Store) (l : VibeLogger) (env : LogEnv)
    (operation : String) (input : GoMap) :
    OperationTracker × Entry × List LogEvent :=
  let tracker : OperationTracker :=
    { id := env.newId, operation := operation, startTime := env.now,
      input := input, context := l.copyFields s }
  let (e, evs) := l.log s env .INFO operation
    [strField "action" "START", strField "operation_id" tracker.id,
     anyField "input" (.vMap input)]
  (tracker, e, evs)

/-- The `CompleteOperation` method of `logger.go`: compute the elapsed
duration `time.Since(tracker.StartTime)` and call `log` at INFO with
action, operation id, input, output and duration as per-call context
fields.  Again no level check guards this dispatch. -/
def VibeLogger.CompleteOperation (s : Store) (l : VibeLogger) (env : LogEnv)
    (tracker : OperationTracker) (output : GoMap) : Entry × List LogEvent :=
  let duration : Int := (env.now : Int) - (tracker.startTime : Int)
  l.log s env .INFO tracker.operation
    [strField "action" "COMPLETE", strField "operation_id" tracker.id,
     anyField "input" (.vMap tracker.input),
     anyField "output" (.vMap output), durField "duration" duration]

/-- The `ErrorOperation` method of `logger.go`: compute the elapsed
duration, build an `ErrorInfo` from `err.Error()` (panicking on a nil
error) and the `%T` type string with retryable false, and call `log` at
ERROR with action, operation id, input, error and duration fields. -/
def VibeLogger.ErrorOperation (s : Store) (l : VibeLogger) (env : LogEnv)
    (tracker : OperationTracker) (err : GoErr) (resolution : String) :
    Except String (Entry × List LogEvent) := do
  let duration : Int := (env.now : Int) - (tracker.startTime : Int)
  let msg ← errMessage err
  let info : GoValue := .vErr msg (errTypeName err) "" "" false resolution []
  return l.log s env .ERROR tracker.operation
    [strField "action" "ERROR", strField "operation_id" tracker.id,
     anyField "input" (.vMap tracker.input), anyField "error" info,
     durField "duration" duration]

/-- The `LogError` method of `logger.go`: build an `ErrorInfo` from
`err.Error()` (panicking on a nil error), the `%T` type string, the
given retryable flag and context map, and the best-effort stack trace,
then call `log` at ERROR on `"error_occurred"`. -/
def VibeLogger.LogError (s : Store) (l : VibeLogger) (env : LogEnv)
    (err : GoErr) (context : GoMap) (retryable : Bool) :
    Except String (Entry × List LogEvent) := do
  let msg ← errMessage err
  let info : GoValue :=
    .vErr msg (errTypeName err) "" env.stack retryable "" context
  return l.log s env .ERROR "error_occurred"
    [anyField "error" info, anyField "context" (.vMap context)]

/-- The `LogRetry` method of `logger.go`: call `log` at WARN with action
RETRY, the attempt count, the error message field (built by the `Error`
field constructor, panicking on a nil error) and the backoff duration. -/
def VibeLogger.LogRetry (s : Store) (l : VibeLogger) (env : LogEnv)
    (operation : String) (attempt : Int) (err : GoErr) (nextRetryIn : Int) :
    Except String (Entry × List LogEvent) := do
  let f ← errField "error" err
  return l.log s env .WARN operation
    [strField "action" "RETRY", intField "attempt" attempt, f,
     durField "next_retry_in" nextRetryIn]

/-- The `LogRecovery` method of `logger.go`: call `log` at INFO with
action RECOVERY, the original error message field (panicking on a nil
error) and the recovery action. -/
def VibeLogger.LogRecovery (s : Store) (l : VibeLogger) (env : LogEnv)
    (operation : String) (originalErr : GoErr) (recoveryAction : String) :
    Except String (Entry × List LogEvent) := do
  let f ← errField "original_error" originalErr
  return l.log s env .INFO operation
    [strField "action" "RECOVERY", f,
     strField "recovery_action" recoveryAction]

/-- Observable events of the error/retry/recovery helpers (the
`ErrorHandler`, `RetryHandler` and `RecoveryHandler` of the handlers
source).  The helpers drive an abstract `Logger` interface; each call of
a level method is recorded as a `logCall` event with its level, message
and fields, each invocation of the caller-supplied operation as an
`invoke` event, each `time.Sleep` as a `sleepFor` event, and each
invocation of the caller-supplied recovery function as a
`recoveryCall` event. -/
inductive RetryEv where
  | logCall (level : LogLevel) (op : String) (fields : List Field)
  | invoke (attempt : Nat) (result : GoErr)
  | sleepFor (d : Nat)
  | recoveryCall (original : GoErrVal) (result : GoErr)

/-- Model of `ErrorHandler.HandleError`: a nil error returns without
logging; otherwise one ERROR-level `error_handled` event is emitted
carrying the error type, message, code, resolution, stack trace, context
and retryable flag (the `WithErrorCode` and `WithResolution` options of
the call sites are inlined as the `code` and `resolution` arguments;
retryable stays at its initial false). -/
def handleErrorEv (err : GoErr) (ctx : GoMap) (code resolution stack : String) :
    List RetryEv :=
  match err with
  | none => []
  | some e =>
      [.logCall .ERROR "error_handled"
        [strField "error_type" e.tyName, strField "error_message" e.msg,
         strField "error_code" code, strField "resolution" resolution,
         strField "stack_trace" stack, anyField "context" (.vMap ctx),
         anyField "retryable" (.vBool false)]]

/-- Model of `ErrorHandler.HandleRetryableError`: one WARN-level
`retryable_error` event with the error data, attempt counters, backoff
and context. -/
def handleRetryableEv (e : GoErrVal) (attempt : Nat) (maxAttempts : Int)
    (nextRetryIn : Nat) (ctx : GoMap) : List RetryEv :=
  [.logCall .WARN "retryable_error"
    [strField "error_type" e.tyName, strField "error_message" e.msg,
     intField "attempt" (attempt : Int), intField "max_attempts" maxAttempts,
     durField "next_retry_in" (nextRetryIn : Int),
     anyField "context" (.vMap ctx)]]

/-- Model of `ErrorHandler.HandleRecovery`: one INFO-level
`recovery_executed` event with the original error, recovery action,
result and context. -/
def handleRecoveryEv (orig : GoErrVal) (action : String) (result : GoValue)
    (ctx : GoMap) : List RetryEv :=
  [.logCall .INFO "recovery_executed"
    [strField "original_error" orig.msg, strField "recovery_action" action,
     anyField "recovery_result" result, anyField "context" (.vMap ctx)]]

/-- The INFO attempt announcement at the top of each loop iteration of
`ExecuteWithRetry`. -/
def attemptEv (op : String) (attempt : Nat) (maxAttempts : Int) (ctx : GoMap) :
    List RetryEv :=
  [.logCall .INFO op
    [strField "action" "ATTEMPT", intField "attempt" (attempt : Int),
     intField "max_attempts" maxAttempts, anyField "context" (.vMap ctx)]]

/-- The INFO success announcement of `ExecuteWithRetry`. -/
def successEv (op : String) (attempt : Nat) (ctx : GoMap) : List RetryEv :=
  [.logCall .INFO op
    [strField "action" "SUCCESS", intField "attempt" (attempt : Int),
     anyField "context" (.vMap ctx)]]

/-- The message passed by `ExecuteWithRetry` to `WithResolution` on
terminal failure. -/
def maxRetriesResolution : String := "手動での対応が必要です"

/-- The message passed by `ExecuteWithRecovery` to `WithResolution` when
the recovery function fails. -/
def recoveryFailedResolution : String := "リカバリーが失敗しました"

/-- The loop of `RetryHandler.ExecuteWithRetry`, structurally recursive
on the number of remaining iterations.  The supplied operation is a
stream of outcomes: `fn k` is the result of its k-th invocation (`none`
is a nil error, success).  At each iteration the attempt is announced,
the operation invoked; success logs SUCCESS and returns nil; a non-final
failure emits the retryable-error warning and sleeps `backoff * attempt`
(linear backoff) before the next iteration; the final failure is routed
to `HandleError` with code MAX_RETRIES_EXCEEDED.  The loop exit returns
the last error. -/
def retryAux (op : String) (fn : Nat → GoErr) (maxAttempts : Int)
    (backoff : Nat) (ctx : GoMap) :
    Nat → Nat → GoErr → GoErr × List RetryEv
  | 0, _, lastErr => (lastErr, [])
  | rem + 1, attempt, _ =>
      let pre := attemptEv op attempt maxAttempts ctx
      match fn attempt with
      | none => (none, pre ++ [.invoke attempt none] ++ successEv op attempt ctx)
      | some e =>
          if rem = 0 then
            (some e,
             pre ++ [.invoke attempt (some e)] ++
               handleErrorEv (some e) ctx "MAX_RETRIES_EXCEEDED"
                 maxRetriesResolution "")
          else
            let wait := backoff * attempt
            let rest := retryAux op fn maxAttempts backoff ctx rem
              (attempt + 1) (some e)
            (rest.1,
             pre ++ [.invoke attempt (some e)] ++
               handleRetryableEv e attempt maxAttempts wait ctx ++
               [.sleepFor wait] ++ rest.2)

/-- `RetryHandler.ExecuteWithRetry`: run the loop for attempts
1 .. maxAttempts (no iteration when `maxAttempts <= 0`), starting with a
nil `lastErr`. -/
def executeWithRetry (op : String) (fn : Nat → GoErr) (maxAttempts : Int)
    (backoff : Nat) (ctx : GoMap) : GoErr × List RetryEv :=
  retryAux op fn maxAttempts backoff ctx maxAttempts.toNat 1 none

/-- `RecoveryHandler.ExecuteWithRecovery`: announce the execution, run
the operation once (`fnRes` is its result); on failure warn
RECOVERY_NEEDED, then, when a recovery function is supplied, invoke it:
a failing recovery is routed to `HandleError` with code RECOVERY_FAILED
and its error is returned; a successful recovery is logged via
`HandleRecovery` and the original error is still returned. -/
def executeWithRecovery (op : String) (fnRes : GoErr)
    (recoveryFn : Option (GoErrVal → GoErr)) (ctx : GoMap) :
    GoErr × List RetryEv :=
  let pre : List RetryEv :=
    [.logCall .INFO op
      [strField "action" "EXECUTE_WITH_RECOVERY",
       anyField "context" (.vMap ctx)]]
  match fnRes with
  | none => (none, pre)
  | some e =>
      let warn : List RetryEv :=
        [.logCall .WARN op
          [strField "action" "RECOVERY_NEEDED", strField "error" e.msg,
           anyField "context" (.vMap ctx)]]
      match recoveryFn with
      | none => (some e, pre ++ warn)
      | some g =>
          match g e with
          | some re =>
              (some re,
               pre ++ warn ++ [.recoveryCall e (some re)] ++
                 handleErrorEv (some re) ctx "RECOVERY_FAILED"
                   recoveryFailedResolution "")
          | none =>
              (some e,
               pre ++ warn ++ [.recoveryCall e none] ++
                 handleRecoveryEv e "custom_recovery" (.vStr "success") ctx)

/-- Attempt numbers of the operation invocations in a helper trace. -/
def invocationsOf (evs : List RetryEv) : List Nat :=
  evs.filterMap fun ev => match ev with
    | .invoke k _ => some k
    | _ => none

/-- Sleep durations in a helper trace, in order. -/
def sleepsOf (evs : List RetryEv) : List Nat :=
  evs.filterMap fun ev => match ev with
    | .sleepFor d => some d
    | _ => none

/-- Recovery-function invocations in a helper trace. -/
def recoveriesOf (evs : List RetryEv) : List GoErrVal :=
  evs.filterMap fun ev => match ev with
    | .recoveryCall e _ => some e
    | _ => none

/-- First field with the given key in a field list. -/
def fieldsLookup : List Field → String → Option GoValue
  | [], _ => none
  | f :: fs, k => if f.key = k then some f.val else fieldsLookup fs k

/-- Error codes of the ERROR-level `error_handled` events in a helper
trace (the `error_code` field `HandleError` attaches). -/
def handledCodes (evs : List RetryEv) : List String :=
  evs.filterMap fun ev => match ev with
    | .logCall .ERROR "error_handled" fs =>
        match fieldsLookup fs "error_code" with
        | some (.vStr c) => some c
        | _ => none
    | _ => none

/-- Writer invocations in a logging-call trace: index and result of each
`Write` call, in order. -/
def writeCallsOf (evs : List LogEvent) : List (Nat × Option String) :=
  evs.filterMap fun ev => match ev with
    | .writeCall i _ r => some (i, r)
    | _ => none

/-- The entries handed to `Write` in a logging-call trace (the contents
of a recording writer after the calls). -/
def writtenEntriesOf (evs : List LogEvent) : List Entry :=
  evs.filterMap fun ev => match ev with
    | .writeCall _ e _ => some e
    | _ => none

/-- The diagnostic failure reports in a logging-call trace. -/
def reportsOf (evs : List LogEvent) : List (Nat × String) :=
  evs.filterMap fun ev => match ev with
    | .writeReport i m => some (i, m)
    | _ => none

/-- Whether some `Write` invocation occurs while the read lock is held,
scanning a trace with the current lock depth. -/
def writeWhileLocked : Nat → List LogEvent → Bool
  | _, [] => false
  | d, .rlockAcquire :: rest => writeWhileLocked (d + 1) rest
  | d, .rlockRelease :: rest => writeWhileLocked (d - 1) rest
  | d, .writeCall _ _ _ :: rest => decide (0 < d) || writeWhileLocked d rest
  | d, .writeReport _ _ :: rest => writeWhileLocked d rest

/-- Consecutive naturals `a, a+1, ..., a+n-1`. -/
def natsFrom : Nat → Nat → List Nat
  | _, 0 => []
  | a, n + 1 => a :: natsFrom (a + 1) n

/-- Value of the last field with the given key in a per-call field list
(the survivor under left-to-right map assignment). -/
def lastField : List Field → String → Option GoValue
  | [], _ => none
  | f :: fs, k =>
      match lastField fs k with
      | some v => some v
      | none => if f.key = k then some f.val else none

theorem mapGet_mapSet_self (m : GoMap) (k : String) (v : GoValue) :
    mapGet (mapSet m k v) k = some v := by
  induction m with
  | nil => simp [mapSet, mapGet]
  | cons kv rest ih =>
      obtain ⟨k1, v1⟩ := kv
      by_cases h : k1 = k
      · simp [mapSet, mapGet, h]
      · simp [mapSet, mapGet, h, ih]

theorem mapGet_mapSet_ne (m : GoMap) (k k9 : String) (v : GoValue)
    (h : k9 ≠ k) : mapGet (mapSet m k v) k9 = mapGet m k9 := by
  have h9 : ¬(k = k9) := fun hh => h hh.symm
  induction m with
  | nil => simp [mapSet, mapGet, h9]
  | cons kv rest ih =>
      obtain ⟨k1, v1⟩ := kv
      by_cases h1 : k1 = k
      · subst h1
        simp [mapSet, mapGet, h9]
      · simp [mapSet, mapGet, h1, ih]

theorem mapGet_mapSet_eq_none_iff (m : GoMap) (k k9 : String) (v : GoValue) :
    mapGet (mapSet m k v) k9 = none ↔ mapGet m k9 = none ∧ k ≠ k9 := by
  by_cases h : k9 = k
  · subst h
    simp [mapGet_mapSet_self]
  · have h9 : k ≠ k9 := fun hh => h hh.symm
    simp [mapGet_mapSet_ne m k k9 v h, h9]

theorem mapGet_foldl_mapSet_eq_none_iff (m : GoMap) (acc : GoMap)
    (k : String) :
    mapGet (m.foldl (fun a kv => mapSet a kv.1 kv.2) acc) k = none ↔
      mapGet acc k = none ∧ mapGet m k = none := by
  induction m generalizing acc with
  | nil => simp [mapGet]
  | cons kv rest ih =>
      obtain ⟨k1, v1⟩ := kv
      simp only [List.foldl_cons, ih (mapSet acc k1 v1),
        mapGet_mapSet_eq_none_iff, mapGet]
      by_cases h : k1 = k
      · simp [h]
      · simp only [h, if_false]
        constructor
        · rintro ⟨⟨ha, _⟩, hr⟩
          exact ⟨ha, hr⟩
        · rintro ⟨ha, hr⟩
          exact ⟨⟨ha, fun hh => h hh⟩, hr⟩

theorem mapGet_copyMap_eq_none_iff (m : GoMap) (k : String) :
    mapGet (copyMap m) k = none ↔ mapGet m k = none := by
  simpa [copyMap, mapGet] using mapGet_foldl_mapSet_eq_none_iff m [] k

theorem mapSet_eq_append (m : GoMap) (k : String) (v : GoValue)
    (h : mapGet m k = none) : mapSet m k v = m ++ [(k, v)] := by
  induction m with
  | nil => simp [mapSet]
  | cons kv rest ih =>
      obtain ⟨k1, v1⟩ := kv
      by_cases h1 : k1 = k
      · simp [mapGet, h1] at h
      · simp only [mapGet, h1, if_false] at h
        simp [mapSet, h1, ih h]

theorem mapGet_eq_none_of_not_mem (m : GoMap) (k : String)
    (h : k ∉ m.map Prod.fst) : mapGet m k = none := by
  induction m with
  | nil => rfl
  | cons kv rest ih =>
      obtain ⟨k1, v1⟩ := kv
      simp only [List.map_cons, List.mem_cons] at h
      push_neg at h
      have h1 : ¬(k1 = k) := fun hh => h.1 hh.symm
      simp [mapGet, h1, ih h.2]

theorem mem_keys_mapSet (m : GoMap) (k x : String) (v : GoValue)
    (h : x ∈ (mapSet m k v).map Prod.fst) :
    x = k ∨ x ∈ m.map Prod.fst := by
  induction m with
  | nil => simpa [mapSet] using h
  | cons kv rest ih =>
      obtain ⟨k1, v1⟩ := kv
      by_cases h1 : k1 = k
      · subst h1
        simpa [mapSet] using h
      · simp only [mapSet, h1, if_false, List.map_cons, List.mem_cons] at h
        rcases h with h | h
        · simp [h]
        · rcases ih h with h2 | h2
          · exact Or.inl h2
          · exact Or.inr (by simp [h2])

theorem foldl_mapSet_eq_append (m : GoMap) (acc : GoMap)
    (h : KeysNodup (acc ++ m)) :
    m.foldl (fun a kv => mapSet a kv.1 kv.2) acc = acc ++ m := by
  induction m generalizing acc with
  | nil => simp
  | cons kv rest ih =>
      obtain ⟨k1, v1⟩ := kv
      have h2 := h
      unfold KeysNodup at h2
      rw [List.map_append, List.nodup_append] at h2
      have hmem : k1 ∉ acc.map Prod.fst := fun hc =>
        h2.2.2 hc (by simp)
      have hnone : mapGet acc k1 = none :=
        mapGet_eq_none_of_not_mem acc k1 hmem
      have hstep : mapSet acc k1 v1 = acc ++ [(k1, v1)] :=
        mapSet_eq_append acc k1 v1 hnone
      have hre : (acc ++ [(k1, v1)]) ++ rest = acc ++ (k1, v1) :: rest := by
        simp
      rw [List.foldl_cons, hstep,
        ih (acc ++ [(k1, v1)]) (by rw [KeysNodup, hre]; exact h), hre]

theorem copyMap_eq_self (m : GoMap) (h : KeysNodup m) : copyMap m = m := by
  simpa [copyMap] using
    foldl_mapSet_eq_append m [] (by simpa [KeysNodup] using h)

theorem keysNodup_mapSet (m : GoMap) (k : String) (v : GoValue)
    (h : KeysNodup m) : KeysNodup (mapSet m k v) := by
  induction m with
  | nil => simp [mapSet, KeysNodup]
  | cons kv rest ih =>
      obtain ⟨k1, v1⟩ := kv
      unfold KeysNodup at h
      simp only [List.map_cons, List.nodup_cons] at h
      by_cases h1 : k1 = k
      · subst h1
        simpa [mapSet, KeysNodup] using h
      · have hrest := ih h.2
        unfold KeysNodup at hrest ⊢
        simp only [mapSet, h1, if_false, List.map_cons, List.nodup_cons]
        refine ⟨?_, hrest⟩
        intro hc
        rcases mem_keys_mapSet rest k k1 v hc with hx | hx
        · exact h1 hx
        · exact h.1 hx

theorem keysNodup_foldl_mapSet (m : GoMap) (acc : GoMap)
    (h : KeysNodup acc) :
    KeysNodup (m.foldl (fun a kv => mapSet a kv.1 kv.2) acc) := by
  induction m generalizing acc with
  | nil => simpa using h
  | cons kv rest ih =>
      exact ih (mapSet acc kv.1 kv.2) (keysNodup_mapSet acc kv.1 kv.2 h)

theorem keysNodup_copyMap (m : GoMap) : KeysNodup (copyMap m) :=
  keysNodup_foldl_mapSet m [] (by simp [KeysNodup])

theorem mapGet_overlay (fs : List Field) (m : GoMap) (k : String) :
    mapGet (fs.foldl (fun a f => mapSet a f.key f.val) m) k =
      match lastField fs k with
      | some v => some v
      | none => mapGet m k := by
  induction fs generalizing m with
  | nil => simp [lastField]
  | cons f rest ih =>
      simp only [List.foldl_cons, ih (mapSet m f.key f.val), lastField]
      cases lastField rest k with
      | some v => simp
      | none =>
          by_cases h : f.key = k
          · subst h
            simp [mapGet_mapSet_self]
          · have h9 : k ≠ f.key := fun hh => h hh.symm
            simp [h, mapGet_mapSet_ne m f.key k f.val h9]

theorem store_read_alloc_of_lt (s : Store) (m : GoMap) (r : Nat)
    (h : r < s.cells.length) : ((s.alloc m).1).read r = s.read r := by
  simp [Store.alloc, Store.read, List.getD_eq_getElem?_getD,
    List.getElem?_append_left h]

theorem store_read_alloc_fresh (s : Store) (m : GoMap) :
    ((s.alloc m).1).read (s.alloc m).2 = m := by
  simp [Store.alloc, Store.read, List.getD_eq_getElem?_getD,
    List.getElem?_concat_length]

theorem store_read_write_ne (s : Store) (m : GoMap) (r w : Nat)
    (h : w ≠ r) : (s.write w m).read r = s.read r := by
  simp [Store.write, Store.read, List.getD_eq_getElem?_getD,
    List.getElem?_set_ne h]

theorem store_read_write_self (s : Store) (m : GoMap) (w : Nat)
    (h : w < s.cells.length) : (s.write w m).read w = m := by
  simp [Store.write, Store.read, List.getD_eq_getElem?_getD,
    List.getElem?_set_self', h]

theorem store_alloc_length (s : Store) (m : GoMap) :
    ((s.alloc m).1).cells.length = s.cells.length + 1 := by
  simp [Store.alloc]

theorem store_alloc_ref (s : Store) (m : GoMap) :
    (s.alloc m).2 = s.cells.length := rfl

theorem writeCallsOf_append (a b : List LogEvent) :
    writeCallsOf (a ++ b) = writeCallsOf a ++ writeCallsOf b := by
  simp [writeCallsOf]

theorem writeCallsOf_writeEntryAux (e : Entry) (ws : List GoWriter)
    (i : Nat) :
    writeCallsOf (writeEntryAux e i ws) =
      (natsFrom i ws.length).zip (ws.map fun w => w.write e) := by
  induction ws generalizing i with
  | nil => rfl
  | cons w rest ih =>
      cases hw : w.write e with
      | none =>
          simp only [writeEntryAux, hw, natsFrom, List.length_cons,
            List.map_cons, List.zip_cons_cons, List.singleton_append,
            writeCallsOf, List.filterMap_cons]
          exact congrArg _ (ih (i + 1))
      | some err =>
          simp only [writeEntryAux, hw, natsFrom, List.length_cons,
            List.map_cons, List.zip_cons_cons, List.cons_append,
            List.singleton_append, writeCallsOf, List.filterMap_cons]
          exact congrArg _ (ih (i + 1))

theorem writeCallsOf_writeEntry (ws : List GoWriter) (e : Entry) :
    writeCallsOf (writeEntry ws e) =
      (natsFrom 0 ws.length).zip (ws.map fun w => w.write e) :=
  writeCallsOf_writeEntryAux e ws 0

theorem writtenEntriesOf_writeEntryAux (e : Entry) (ws : List GoWriter)
    (i : Nat) :
    writtenEntriesOf (writeEntryAux e i ws) = List.replicate ws.length e := by
  induction ws generalizing i with
  | nil => rfl
  | cons w rest ih =>
      cases hw : w.write e with
      | none =>
          simp only [writeEntryAux, hw, List.length_cons,
            List.replicate_succ, List.singleton_append,
            writtenEntriesOf, List.filterMap_cons]
          exact congrArg _ (ih (i + 1))
      | some err =>
          simp only [writeEntryAux, hw, List.length_cons,
            List.replicate_succ, List.cons_append, List.singleton_append,
            writtenEntriesOf, List.filterMap_cons]
          exact congrArg _ (ih (i + 1))

theorem log_trace_shape (s : Store) (l : VibeLogger) (env : LogEnv)
    (level : LogLevel) (msg : String) (fields : List Field) :
    (l.log s env level msg fields).2 =
      [.rlockAcquire] ++
        writeEntry l.writers (l.log s env level msg fields).1 ++
        [.rlockRelease] := rfl

theorem writeCallsOf_log (s : Store) (l : VibeLogger) (env : LogEnv)
    (level : LogLevel) (msg : String) (fields : List Field) :
    writeCallsOf (l.log s env level msg fields).2 =
      (natsFrom 0 l.writers.length).zip
        (l.writers.map fun w => w.write (l.log s env level msg fields).1) := by
  rw [log_trace_shape]
  simp only [writeCallsOf_append, writeCallsOf_writeEntry]
  simp [writeCallsOf]

theorem writtenEntriesOf_log (s : Store) (l : VibeLogger) (env : LogEnv)
    (level : LogLevel) (msg : String) (fields : List Field) :
    writtenEntriesOf (l.log s env level msg fields).2 =
      List.replicate l.writers.length (l.log s env level msg fields).1 := by
  rw [log_trace_shape]
  simp only [writtenEntriesOf, List.filterMap_append]
  rw [show writeEntry l.writers (l.log s env level msg fields).1
        = writeEntryAux (l.log s env level msg fields).1 0 l.writers from rfl]
  rw [show List.filterMap
        (fun ev => match ev with
          | LogEvent.writeCall _ e _ => some e
          | _ => none)
        (writeEntryAux (l.log s env level msg fields).1 0 l.writers)
      = writtenEntriesOf
          (writeEntryAux (l.log s env level msg fields).1 0 l.writers)
      from rfl]
  rw [writtenEntriesOf_writeEntryAux]
  simp [List.filterMap_cons]

theorem natsFrom_length (a n : Nat) : (natsFrom a n).length = n := by
  induction n generalizing a with
  | zero => rfl
  | succ n ih => simp [natsFrom, ih]

theorem writeCallsOf_log_length (s : Store) (l : VibeLogger) (env : LogEnv)
    (level : LogLevel) (msg : String) (fields : List Field) :
    (writeCallsOf (l.log s env level msg fields).2).length =
      l.writers.length := by
  rw [writeCallsOf_log]
  simp [natsFrom_length]

theorem log_level (s : Store) (l : VibeLogger) (env : LogEnv)
    (level : LogLevel) (msg : String) (fields : List Field) :
    (l.log s env level msg fields).1.level = level := by
  obtain ⟨a, b, c, d, caller, f⟩ := env
  rcases caller with _ | ⟨loc, fn⟩
  · rfl
  · rcases fn with _ | nm <;> rfl

theorem log_action (s : Store) (l : VibeLogger) (env : LogEnv)
    (level : LogLevel) (msg : String) (fields : List Field) :
    (l.log s env level msg fields).1.action = "" := by
  obtain ⟨a, b, c, d, caller, f⟩ := env
  rcases caller with _ | ⟨loc, fn⟩
  · rfl
  · rcases fn with _ | nm <;> rfl

theorem log_operation (s : Store) (l : VibeLogger) (env : LogEnv)
    (level : LogLevel) (msg : String) (fields : List Field) :
    (l.log s env level msg fields).1.operation = msg := by
  obtain ⟨a, b, c, d, caller, f⟩ := env
  rcases caller with _ | ⟨loc, fn⟩
  · rfl
  · rcases fn with _ | nm <;> rfl

theorem log_output (s : Store) (l : VibeLogger) (env : LogEnv)
    (level : LogLevel) (msg : String) (fields : List Field) :
    (l.log s env level msg fields).1.output = none := by
  obtain ⟨a, b, c, d, caller, f⟩ := env
  rcases caller with _ | ⟨loc, fn⟩
  · rfl
  · rcases fn with _ | nm <;> rfl

theorem log_duration (s : Store) (l : VibeLogger) (env : LogEnv)
    (level : LogLevel) (msg : String) (fields : List Field) :
    (l.log s env level msg fields).1.duration = 0 := by
  obtain ⟨a, b, c, d, caller, f⟩ := env
  rcases caller with _ | ⟨loc, fn⟩
  · rfl
  · rcases fn with _ | nm <;> rfl

theorem log_tags (s : Store) (l : VibeLogger) (env : LogEnv)
    (level : LogLevel) (msg : String) (fields : List Field) :
    (l.log s env level msg fields).1.tags = l.tags := by
  obtain ⟨a, b, c, d, caller, f⟩ := env
  rcases caller with _ | ⟨loc, fn⟩
  · rfl
  · rcases fn with _ | nm <;> rfl

theorem log_context (s : Store) (l : VibeLogger) (env : LogEnv)
    (level : LogLevel) (msg : String) (fields : List Field) :
    (l.log s env level msg fields).1.context =
      fields.foldl (fun m f => mapSet m f.key f.val)
        (copyMap (s.read l.fields)) := by
  obtain ⟨a, b, c, d, caller, f⟩ := env
  rcases caller with _ | ⟨loc, fn⟩
  · rfl
  · rcases fn with _ | nm <;> rfl

theorem Debug_eq (s : Store) (l : VibeLogger) (env : LogEnv)
    (msg : String) (fields : List Field) :
    l.Debug s env msg fields =
      if l.level.toNat ≤ LogLevel.DEBUG.toNat then
        (some (l.log s env .DEBUG msg fields).1,
         (l.log s env .DEBUG msg fields).2)
      else (none, []) := rfl

theorem Info_eq (s : Store) (l : VibeLogger) (env : LogEnv)
    (msg : String) (fields : List Field) :
    l.Info s env msg fields =
      if l.level.toNat ≤ LogLevel.INFO.toNat then
        (some (l.log s env .INFO msg fields).1,
         (l.log s env .INFO msg fields).2)
      else (none, []) := rfl

theorem Warn_eq (s : Store) (l : VibeLogger) (env : LogEnv)
    (msg : String) (fields : List Field) :
    l.Warn s env msg fields =
      if l.level.toNat ≤ LogLevel.WARN.toNat then
        (some (l.log s env .WARN msg fields).1,
         (l.log s env .WARN msg fields).2)
      else (none, []) := rfl

theorem Error_eq (s : Store) (l : VibeLogger) (env : LogEnv)
    (msg : String) (fields : List Field) :
    l.Error s env msg fields =
      if l.level.toNat ≤ LogLevel.ERROR.toNat then
        (some (l.log s env .ERROR msg fields).1,
         (l.log s env .ERROR msg fields).2)
      else (none, []) := rfl

theorem Fatal_eq (s : Store) (l : VibeLogger) (env : LogEnv)
    (msg : String) (fields : List Field) :
    l.Fatal s env msg fields =
      if l.level.toNat ≤ LogLevel.FATAL.toNat then
        (some (l.log s env .FATAL msg fields).1,
         (l.log s env .FATAL msg fields).2)
      else (none, []) := rfl

theorem StartOperation_eq (s : Store) (l : VibeLogger) (env : LogEnv)
    (op : String) (input : GoMap) :
    l.StartOperation s env op input =
      ({ id := env.newId, operation := op, startTime := env.now,
         input := input, context := l.copyFields s },
       (l.log s env .INFO op
          [strField "action" "START", strField "operation_id" env.newId,
           anyField "input" (.vMap input)]).1,
       (l.log s env .INFO op
          [strField "action" "START", strField "operation_id" env.newId,
           anyField "input" (.vMap input)]).2) := rfl

theorem CompleteOperation_eq (s : Store) (l : VibeLogger) (env : LogEnv)
    (tracker : OperationTracker) (output : GoMap) :
    l.CompleteOperation s env tracker output =
      l.log s env .INFO tracker.operation
        [strField "action" "COMPLETE", strField "operation_id" tracker.id,
         anyField "input" (.vMap tracker.input),
         anyField "output" (.vMap output),
         durField "duration" ((env.now : Int) - (tracker.startTime : Int))] :=
  rfl

theorem ErrorOperation_some_eq (s : Store) (l : VibeLogger) (env : LogEnv)
    (tracker : OperationTracker) (e9 : GoErrVal) (resolution : String) :
    l.ErrorOperation s env tracker (some e9) resolution =
      .ok (l.log s env .ERROR tracker.operation
        [strField "action" "ERROR", strField "operation_id" tracker.id,
         anyField "input" (.vMap tracker.input),
         anyField "error" (.vErr e9.msg e9.tyName "" "" false resolution []),
         durField "duration"
           ((env.now : Int) - (tracker.startTime : Int))]) := rfl

theorem LogRetry_some_eq (s : Store) (l : VibeLogger) (env : LogEnv)
    (op : String) (attempt : Int) (e9 : GoErrVal) (nextRetryIn : Int) :
    l.LogRetry s env op attempt (some e9) nextRetryIn =
      .ok (l.log s env .WARN op
        [strField "action" "RETRY", intField "attempt" attempt,
         strField "error" e9.msg, durField "next_retry_in" nextRetryIn]) :=
  rfl

theorem LogRecovery_some_eq (s : Store) (l : VibeLogger) (env : LogEnv)
    (op : String) (e9 : GoErrVal) (recoveryAction : String) :
    l.LogRecovery s env op (some e9) recoveryAction =
      .ok (l.log s env .INFO op
        [strField "action" "RECOVERY", strField "original_error" e9.msg,
         strField "recovery_action" recoveryAction]) := rfl

/-- Logger at minimum level ERROR with one always-succeeding writer,
running `StartOperation` (which emits at INFO). -/
def errLevelStart : OperationTracker × Entry × List LogEvent :=
  let p := New Store.empty .ERROR
  (p.2.AddWriter okWriter).StartOperation p.1 exEnv "op" []

/-- Logger at minimum level INFO with one writer, running `Info`. -/
def lockScenario : Option Entry × List LogEvent :=
  let p := New Store.empty .INFO
  (p.2.AddWriter okWriter).Info p.1 exEnv "hello" []

/-- Logger at minimum level INFO with three writers of which the second
always fails, running `Info`. -/
def threeWriterCall : Option Entry × List LogEvent :=
  let p := New Store.empty .INFO
  let l3 := ((p.2.AddWriter okWriter).AddWriter failWriter).AddWriter okWriter
  l3.Info p.1 exEnv "hello" []

/-- Concrete scenario 3 of the spec: a fresh INFO logger with one
recording writer runs `t := StartOperation("op", x:1)` at instant `t1`
and then `CompleteOperation(t, y:2)` at instant `t2`.  Returns the START
entry, the COMPLETE entry, and the list of entries handed to the
writer across both calls. -/
def scenarioOps (t1 t2 : Nat) : Entry × Entry × List Entry :=
  let p := New Store.empty .INFO
  let l := p.2.AddWriter okWriter
  let r1 := l.StartOperation p.1 { exEnv with newId := "op-id-1", now := t1 }
    "op" [("x", .vInt 1)]
  let r2 := l.CompleteOperation p.1 { exEnv with newId := "op-id-2", now := t2 }
    r1.1 [("y", .vInt 2)]
  (r1.2.1, r2.1, writtenEntriesOf (r1.2.2 ++ r2.2))

/-- C1 (corrected), counterexample to the claim as stated: with minimum
level ERROR and one registered writer, `StartOperation` still performs
one `Write` invocation, dispatching an INFO entry although INFO < ERROR. -/
theorem C1_counterexample :
    (writeCallsOf errLevelStart.2.2).length = 1 ∧
    errLevelStart.2.1.level = .INFO ∧
    LogLevel.INFO.toNat < LogLevel.ERROR.toNat :=
  ⟨rfl, rfl, by decide⟩

/-- C1 (amended): the five level methods dispatch an entry, and invoke
the writers, exactly when the method level is at or above the logger's
minimum level, and the dispatched entry carries the method level; but
the operation-tracking emitters `StartOperation`, `CompleteOperation`,
`ErrorOperation`, `LogRetry` and `LogRecovery` call the internal log
routine directly with no level check, so they always invoke every
registered writer once, whatever the minimum level is. -/
theorem C1_level_filter_amended (s : Store) (l : VibeLogger) (env : LogEnv)
    (msg op : String) (fields : List Field) (input output : GoMap)
    (tracker : OperationTracker) (e9 : GoErrVal)
    (resolution recoveryAction : String) (attempt nextRetryIn : Int) :
    ((l.Debug s env msg fields).1.map Entry.level =
      if l.level.toNat ≤ LogLevel.DEBUG.toNat then some LogLevel.DEBUG
      else none) ∧
    ((writeCallsOf (l.Debug s env msg fields).2).length =
      if l.level.toNat ≤ LogLevel.DEBUG.toNat then l.writers.length else 0) ∧
    ((l.Info s env msg fields).1.map Entry.level =
      if l.level.toNat ≤ LogLevel.INFO.toNat then some LogLevel.INFO
      else none) ∧
    ((writeCallsOf (l.Info s env msg fields).2).length =
      if l.level.toNat ≤ LogLevel.INFO.toNat then l.writers.length else 0) ∧
    ((l.Warn s env msg fields).1.map Entry.level =
      if l.level.toNat ≤ LogLevel.WARN.toNat then some LogLevel.WARN
      else none) ∧
    ((writeCallsOf (l.Warn s env msg fields).2).length =
      if l.level.toNat ≤ LogLevel.WARN.toNat then l.writers.length else 0) ∧
    ((l.Error s env msg fields).1.map Entry.level =
      if l.level.toNat ≤ LogLevel.ERROR.toNat then some LogLevel.ERROR
      else none) ∧
    ((writeCallsOf (l.Error s env msg fields).2).length =
      if l.level.toNat ≤ LogLevel.ERROR.toNat then l.writers.length else 0) ∧
    ((l.Fatal s env msg fields).1.map Entry.level =
      if l.level.toNat ≤ LogLevel.FATAL.toNat then some LogLevel.FATAL
      else none) ∧
    ((writeCallsOf (l.Fatal s env msg fields).2).length =
      if l.level.toNat ≤ LogLevel.FATAL.toNat then l.writers.length else 0) ∧
    ((l.StartOperation s env op input).2.1.level = .INFO) ∧
    ((writeCallsOf (l.StartOperation s env op input).2.2).length =
      l.writers.length) ∧
    ((l.CompleteOperation s env tracker output).1.level = .INFO) ∧
    ((writeCallsOf (l.CompleteOperation s env tracker output).2).length =
      l.writers.length) ∧
    ((l.ErrorOperation s env tracker (some e9) resolution).toOption.map
        (fun p => (p.1.level, (writeCallsOf p.2).length)) =
      some (LogLevel.ERROR, l.writers.length)) ∧
    ((l.LogRetry s env op attempt (some e9) nextRetryIn).toOption.map
        (fun p => (p.1.level, (writeCallsOf p.2).length)) =
      some (LogLevel.WARN, l.writers.length)) ∧
    ((l.LogRecovery s env op (some e9) recoveryAction).toOption.map
        (fun p => (p.1.level, (writeCallsOf p.2).length)) =
      some (LogLevel.INFO, l.writers.length)) := by
  refine ⟨?_, ?_, ?_, ?_, ?_, ?_, ?_, ?_, ?_, ?_, ?_, ?_, ?_, ?_, ?_, ?_, ?_⟩
  · rw [Debug_eq]
    by_cases h : l.level.toNat ≤ LogLevel.DEBUG.toNat <;>
      simp [h, log_level]
  · rw [Debug_eq]
    by_cases h : l.level.toNat ≤ LogLevel.DEBUG.toNat
    · simp [h, writeCallsOf_log_length]
    · simp [h, writeCallsOf]
  · rw [Info_eq]
    by_cases h : l.level.toNat ≤ LogLevel.INFO.toNat <;>
      simp [h, log_level]
  · rw [Info_eq]
    by_cases h : l.level.toNat ≤ LogLevel.INFO.toNat
    · simp [h, writeCallsOf_log_length]
    · simp [h, writeCallsOf]
  · rw [Warn_eq]
    by_cases h : l.level.toNat ≤ LogLevel.WARN.toNat <;>
      simp [h, log_level]
  · rw [Warn_eq]
    by_cases h : l.level.toNat ≤ LogLevel.WARN.toNat
    · simp [h, writeCallsOf_log_length]
    · simp [h, writeCallsOf]
  · rw [Error_eq]
    by_cases h : l.level.toNat ≤ LogLevel.ERROR.toNat <;>
      simp [h, log_level]
  · rw [Error_eq]
    by_cases h : l.level.toNat ≤ LogLevel.ERROR.toNat
    · simp [h, writeCallsOf_log_length]
    · simp [h, writeCallsOf]
  · rw [Fatal_eq]
    by_cases h : l.level.toNat ≤ LogLevel.FATAL.toNat <;>
      simp [h, log_level]
  · rw [Fatal_eq]
    by_cases h : l.level.toNat ≤ LogLevel.FATAL.toNat
    · simp [h, writeCallsOf_log_length]
    · simp [h, writeCallsOf]
  · rw [StartOperation_eq]
    exact log_level _ _ _ _ _ _
  · rw [StartOperation_eq]
    exact writeCallsOf_log_length _ _ _ _ _ _
  · rw [CompleteOperation_eq]
    exact log_level _ _ _ _ _ _
  · rw [CompleteOperation_eq]
    exact writeCallsOf_log_length _ _ _ _ _ _
  · rw [ErrorOperation_some_eq]
    simp [Except.toOption, log_level, writeCallsOf_log_length]
  · rw [LogRetry_some_eq]
    simp [Except.toOption, log_level, writeCallsOf_log_length]
  · rw [LogRecovery_some_eq]
    simp [Except.toOption, log_level, writeCallsOf_log_length]

/-- C3 (code bug): the claim that normal logging calls never panic is
the spec's stated intent, but the `Error` field constructor, `LogError`
and `ErrorOperation` all evaluate `err.Error()` without a nil check, so
a nil error argument raises a nil-pointer fault inside the core. -/
theorem C3_nil_error_panics :
    errField "error" none = .error nilDerefPanic ∧
    (∀ (s : Store) (l : VibeLogger) (env : LogEnv) (ctx : GoMap)
        (retryable : Bool),
      l.LogError s env none ctx retryable = .error nilDerefPanic) ∧
    (∀ (s : Store) (l : VibeLogger) (env : LogEnv)
        (tracker : OperationTracker) (resolution : String),
      l.ErrorOperation s env tracker none resolution =
        .error nilDerefPanic) :=
  ⟨rfl, fun _ _ _ _ _ => rfl, fun _ _ _ _ _ => rfl⟩

/-- C5: every dispatched entry is handed to each registered writer
exactly once, in registration order, with each writer's own result; a
failing writer stops neither the iteration nor the call, and in the
concrete three-writer scenario with the second writer failing, one
logging call performs exactly three `Write` invocations and reports
exactly one failure. -/
theorem C5_fanout_complete :
    (∀ (ws : List GoWriter) (e : Entry),
      writeCallsOf (writeEntry ws e) =
        (natsFrom 0 ws.length).zip (ws.map fun w => w.write e)) ∧
    writeCallsOf threeWriterCall.2 =
      [(0, none), (1, some "write failed"), (2, none)] ∧
    (writeCallsOf threeWriterCall.2).length = 3 ∧
    (reportsOf threeWriterCall.2).length = 1 :=
  ⟨writeCallsOf_writeEntry, rfl, rfl, rfl⟩

/-- C9 (code bug): the read lock taken at the top of `log` is released
by a deferred `RUnlock` that runs only after `writeEntry`, so the
`Write` invocation of the registered writer happens while the read lock
is held, contradicting the claim that the critical section ends before
fan-out. -/
theorem C9_write_under_lock :
    writeWhileLocked 0 lockScenario.2 = true ∧
    (writeCallsOf lockScenario.2).length = 1 :=
  ⟨rfl, rfl⟩

/-- C2 (corrected), counterexample to the claim as stated: in the
start/complete scenario the recorded entries do not carry the phase in
the `Entry` struct's `Action` attribute (it stays at the zero value
`""`), the second entry's `Output` attribute is nil, and its `Duration`
attribute is the zero value - `StartOperation` and `CompleteOperation`
pass action, output and duration as context fields instead. -/
theorem C2_counterexample :
    (scenarioOps 0 5).1.action ≠ "START" ∧
    (scenarioOps 0 5).2.1.action ≠ "COMPLETE" ∧
    (scenarioOps 0 5).2.1.output = none ∧
    (scenarioOps 0 5).2.1.duration = 0 := by
  refine ⟨fun h => ?_, fun h => ?_, rfl, rfl⟩
  · exact (by decide : ("" : String) ≠ "START") h
  · exact (by decide : ("" : String) ≠ "COMPLETE") h

/-- C2 (amended): with minLevel INFO and a single recording writer,
`StartOperation` followed by `CompleteOperation` hands exactly two
entries to the writer, in order; the operation phase is carried in the
context mapping: the first entry has `Context["action"] == "START"`, the
second has `Context["action"] == "COMPLETE"`, `Context["output"]` is the
supplied output map (so its key `"y"` holds 2), and
`Context["duration"]` is the elapsed duration, which is non-negative;
the `Entry` struct's own `Action`, `Output` and `Duration` attributes
remain zero-valued. -/
theorem C2_scenario_amended (t1 t2 : Nat) (h : t1 ≤ t2) :
    (scenarioOps t1 t2).2.2 =
      [(scenarioOps t1 t2).1, (scenarioOps t1 t2).2.1] ∧
    mapGet (scenarioOps t1 t2).1.context "action" =
      some (.vStr "START") ∧
    mapGet (scenarioOps t1 t2).2.1.context "action" =
      some (.vStr "COMPLETE") ∧
    mapGet (scenarioOps t1 t2).2.1.context "output" =
      some (.vMap [("y", .vInt 2)]) ∧
    (∃ d : Int,
      mapGet (scenarioOps t1 t2).2.1.context "duration" =
        some (.vDur d) ∧ 0 ≤ d) ∧
    (scenarioOps t1 t2).1.action = "" ∧
    (scenarioOps t1 t2).2.1.action = "" ∧
    (scenarioOps t1 t2).2.1.output = none ∧
    (scenarioOps t1 t2).2.1.duration = 0 := by
  refine ⟨rfl, rfl, rfl, rfl, ⟨(t2 : Int) - (t1 : Int), rfl, ?_⟩,
    rfl, rfl, rfl, rfl⟩
  omega

theorem C2_scenario_amended_witness :
    0 ≤ 5 ∧
    mapGet (scenarioOps 0 5).1.context "action" = some (.vStr "START") ∧
    (∃ d : Int,
      mapGet (scenarioOps 0 5).2.1.context "duration" =
        some (.vDur d) ∧ 0 ≤ d) :=
  ⟨by decide, (C2_scenario_amended 0 5 (by decide)).2.1,
    (C2_scenario_amended 0 5 (by decide)).2.2.2.2.1⟩

theorem read_after_alloc_write (s : Store) (M X : GoMap) (r : Nat)
    (h : r < s.cells.length) :
    (((s.alloc M).1).write (s.alloc M).2 X).read r = s.read r := by
  rw [store_read_write_ne ((s.alloc M).1) X r (s.alloc M).2
      (by rw [store_alloc_ref]; omega)]
  exact store_read_alloc_of_lt s M r h

theorem withField_store (s : Store) (l : VibeLogger) (k : String)
    (v : GoValue) :
    (l.WithField s k v).1 =
      ((s.alloc (copyMap (s.read l.fields))).1).write
        (s.alloc (copyMap (s.read l.fields))).2
        (mapSet (((s.alloc (copyMap (s.read l.fields))).1).read
          (s.alloc (copyMap (s.read l.fields))).2) k v) := rfl

theorem withFields_store (s : Store) (l : VibeLogger) (fm : GoMap) :
    (l.WithFields s fm).1 =
      ((s.alloc (copyMap (s.read l.fields))).1).write
        (s.alloc (copyMap (s.read l.fields))).2
        (fm.foldl (fun acc kv => mapSet acc kv.1 kv.2)
          (((s.alloc (copyMap (s.read l.fields))).1).read
            (s.alloc (copyMap (s.read l.fields))).2)) := rfl

theorem withTag_store (s : Store) (l : VibeLogger) (t : String) :
    (l.WithTag s t).1 = (s.alloc (copyMap (s.read l.fields))).1 := rfl

theorem withTags_store (s : Store) (l : VibeLogger) (ts : List String) :
    (l.WithTags s ts).1 = (s.alloc (copyMap (s.read l.fields))).1 := rfl

theorem withTraceID_store (s : Store) (l : VibeLogger) (tid : String) :
    (l.WithTraceID s tid).1 = (s.alloc (copyMap (s.read l.fields))).1 := rfl

theorem withSpanID_store (s : Store) (l : VibeLogger) (sid : String) :
    (l.WithSpanID s sid).1 = (s.alloc (copyMap (s.read l.fields))).1 := rfl

theorem withParentID_store (s : Store) (l : VibeLogger) (pid : String) :
    (l.WithParentID s pid).1 = (s.alloc (copyMap (s.read l.fields))).1 := rfl

theorem withContext_store (s : Store) (l : VibeLogger) (tok : Nat) :
    (l.WithContext s tok).1 = (s.alloc (copyMap (s.read l.fields))).1 := rfl

theorem withField_read (s : Store) (l : VibeLogger) (k : String)
    (v : GoValue) :
    ((l.WithField s k v).1).read ((l.WithField s k v).2).fields =
      mapSet (copyMap (s.read l.fields)) k v := by
  rw [show ((l.WithField s k v).2).fields
      = (s.alloc (copyMap (s.read l.fields))).2 from rfl, withField_store]
  rw [store_read_alloc_fresh]
  exact store_read_write_self _ _ _
    (by rw [store_alloc_length, store_alloc_ref]; omega)

/-- C4: derivations never mutate the receiver - after any of the eight
`With*` calls, the base logger's fields cell reads back unchanged,
logging on the base in the post-derivation store does not show the
derived field, the base's entries do not show a derived tag, and two tag
derivations from the same base are independent (neither one's entries
contain the other's tag). -/
theorem C4_derivation_frame (s : Store) (l : VibeLogger) (env : LogEnv)
    (level : LogLevel) (msg : String) (k : String) (v : GoValue)
    (fm : GoMap) (tag1 tag2 : String) (tags : List String)
    (tid sid pid : String) (tok : Nat)
    (h : l.fields < s.cells.length) :
    (((l.WithField s k v).1).read l.fields = s.read l.fields) ∧
    (((l.WithFields s fm).1).read l.fields = s.read l.fields) ∧
    (((l.WithTag s tag1).1).read l.fields = s.read l.fields) ∧
    (((l.WithTags s tags).1).read l.fields = s.read l.fields) ∧
    (((l.WithTraceID s tid).1).read l.fields = s.read l.fields) ∧
    (((l.WithSpanID s sid).1).read l.fields = s.read l.fields) ∧
    (((l.WithParentID s pid).1).read l.fields = s.read l.fields) ∧
    (((l.WithContext s tok).1).read l.fields = s.read l.fields) ∧
    (mapGet (s.read l.fields) k = none →
      mapGet (VibeLogger.log (l.WithField s k v).1 l env level msg
        []).1.context k = none) ∧
    (tag1 ∉ l.tags →
      tag1 ∉ (VibeLogger.log (l.WithTag s tag1).1 l env level msg
        []).1.tags) ∧
    (tag1 ∉ l.tags → tag2 ∉ l.tags → tag1 ≠ tag2 →
      (tag2 ∉ (VibeLogger.log (l.WithTag (l.WithTag s tag1).1 tag2).1
          ((l.WithTag s tag1).2) env level msg []).1.tags ∧
       tag1 ∉ (VibeLogger.log (l.WithTag (l.WithTag s tag1).1 tag2).1
          ((l.WithTag (l.WithTag s tag1).1 tag2).2) env level msg
          []).1.tags)) := by
  refine ⟨?_, ?_, ?_, ?_, ?_, ?_, ?_, ?_, ?_, ?_, ?_⟩
  · rw [withField_store]
    exact read_after_alloc_write s _ _ _ h
  · rw [withFields_store]
    exact read_after_alloc_write s _ _ _ h
  · rw [withTag_store]
    exact store_read_alloc_of_lt s _ _ h
  · rw [withTags_store]
    exact store_read_alloc_of_lt s _ _ h
  · rw [withTraceID_store]
    exact store_read_alloc_of_lt s _ _ h
  · rw [withSpanID_store]
    exact store_read_alloc_of_lt s _ _ h
  · rw [withParentID_store]
    exact store_read_alloc_of_lt s _ _ h
  · rw [withContext_store]
    exact store_read_alloc_of_lt s _ _ h
  · intro h2
    rw [log_context]
    simp only [List.foldl_nil]
    rw [show ((l.WithField s k v).1).read l.fields = s.read l.fields from by
      rw [withField_store]; exact read_after_alloc_write s _ _ _ h]
    exact (mapGet_copyMap_eq_none_iff _ _).mpr h2
  · intro ht1
    rw [log_tags]
    exact ht1
  · intro ht1 ht2 hne
    constructor
    · rw [log_tags]
      rw [show ((l.WithTag s tag1).2).tags = l.tags ++ [tag1] from rfl]
      simp [ht2, Ne.symm hne]
    · rw [log_tags]
      rw [show ((l.WithTag (l.WithTag s tag1).1 tag2).2).tags
          = l.tags ++ [tag2] from rfl]
      simp [ht1, hne]

theorem C4_derivation_frame_witness :
    (New Store.empty .INFO).2.fields <
      (New Store.empty .INFO).1.cells.length ∧
    (((New Store.empty .INFO).2.WithField (New Store.empty .INFO).1
        "a" (.vInt 1)).1).read (New Store.empty .INFO).2.fields =
      (New Store.empty .INFO).1.read (New Store.empty .INFO).2.fields :=
  ⟨by decide,
    (C4_derivation_frame (New Store.empty .INFO).1 (New Store.empty .INFO).2
      exEnv .INFO "m" "a" (.vInt 1) [] "x" "y" [] "" "" "" 0
      (by decide)).1⟩

theorem lastField_isSome_of_mem (fs : List Field) (f : Field)
    (h : f ∈ fs) : (lastField fs f.key).isSome := by
  induction fs with
  | nil => cases h
  | cons g rest ih =>
      rcases List.mem_cons.mp h with h1 | h1
      · subst h1
        unfold lastField
        cases hr : lastField rest f.key <;> simp [hr]
      · have := ih h1
        unfold lastField
        cases hr : lastField rest f.key
        · rw [hr] at this
          simp at this
        · simp [hr]

/-- C6: every per-call field key appears in the dispatched entry's
context; the context value at any key is the last per-call field with
that key when one exists (later per-call fields win), and otherwise the
accumulated field map's value (per-call overrides accumulated); and a
later `WithField` on the same key overwrites an earlier one (map
semantics of the accumulated set). -/
theorem C6_context_roundtrip (s : Store) (l : VibeLogger) (env : LogEnv)
    (level : LogLevel) (msg : String) (fields : List Field) (k : String)
    (v1 v2 : GoValue) (hnd : KeysNodup (s.read l.fields)) :
    (∀ f ∈ fields,
      (mapGet (l.log s env level msg fields).1.context f.key).isSome) ∧
    (mapGet (l.log s env level msg fields).1.context k =
      match lastField fields k with
      | some v => some v
      | none => mapGet (s.read l.fields) k) ∧
    (mapGet (VibeLogger.log
        ((l.WithField s k v1).2.WithField (l.WithField s k v1).1 k v2).1
        ((l.WithField s k v1).2.WithField (l.WithField s k v1).1 k v2).2
        env level msg []).1.context k = some v2) := by
  refine ⟨?_, ?_, ?_⟩
  · intro f hf
    rw [log_context, mapGet_overlay]
    cases hr : lastField fields f.key
    · have := lastField_isSome_of_mem fields f hf
      rw [hr] at this
      simp at this
    · simp
  · rw [log_context, mapGet_overlay, copyMap_eq_self _ hnd]
  · rw [log_context]
    simp only [List.foldl_nil]
    rw [withField_read ((l.WithField s k v1).1) ((l.WithField s k v1).2)
      k v2]
    rw [copyMap_eq_self _ (keysNodup_mapSet _ k v2 (keysNodup_copyMap _))]
    exact mapGet_mapSet_self _ _ _

theorem invocationsOf_append (a b : List RetryEv) :
    invocationsOf (a ++ b) = invocationsOf a ++ invocationsOf b := by
  simp [invocationsOf]

theorem sleepsOf_append (a b : List RetryEv) :
    sleepsOf (a ++ b) = sleepsOf a ++ sleepsOf b := by
  simp [sleepsOf]

theorem handledCodes_append (a b : List RetryEv) :
    handledCodes (a ++ b) = handledCodes a ++ handledCodes b := by
  simp [handledCodes]

theorem recoveriesOf_append (a b : List RetryEv) :
    recoveriesOf (a ++ b) = recoveriesOf a ++ recoveriesOf b := by
  simp [recoveriesOf]

theorem invocationsOf_attemptEv (op : String) (a : Nat) (M : Int)
    (ctx : GoMap) : invocationsOf (attemptEv op a M ctx) = [] := rfl

theorem invocationsOf_successEv (op : String) (a : Nat) (ctx : GoMap) :
    invocationsOf (successEv op a ctx) = [] := rfl

theorem invocationsOf_handleRetryableEv (e : GoErrVal) (a : Nat) (M : Int)
    (w : Nat) (ctx : GoMap) :
    invocationsOf (handleRetryableEv e a M w ctx) = [] := rfl

theorem invocationsOf_handleErrorEv (e : GoErrVal) (ctx : GoMap)
    (code resolution stack : String) :
    invocationsOf (handleErrorEv (some e) ctx code resolution stack) = [] :=
  rfl

theorem sleepsOf_attemptEv (op : String) (a : Nat) (M : Int) (ctx : GoMap) :
    sleepsOf (attemptEv op a M ctx) = [] := rfl

theorem sleepsOf_successEv (op : String) (a : Nat) (ctx : GoMap) :
    sleepsOf (successEv op a ctx) = [] := rfl

theorem sleepsOf_handleRetryableEv (e : GoErrVal) (a : Nat) (M : Int)
    (w : Nat) (ctx : GoMap) :
    sleepsOf (handleRetryableEv e a M w ctx) = [] := rfl

theorem sleepsOf_handleErrorEv (e : GoErrVal) (ctx : GoMap)
    (code resolution stack : String) :
    sleepsOf (handleErrorEv (some e) ctx code resolution stack) = [] := rfl

theorem handledCodes_attemptEv (op : String) (a : Nat) (M : Int)
    (ctx : GoMap) : handledCodes (attemptEv op a M ctx) = [] := rfl

theorem handledCodes_successEv (op : String) (a : Nat) (ctx : GoMap) :
    handledCodes (successEv op a ctx) = [] := rfl

theorem handledCodes_handleRetryableEv (e : GoErrVal) (a : Nat) (M : Int)
    (w : Nat) (ctx : GoMap) :
    handledCodes (handleRetryableEv e a M w ctx) = [] := rfl

theorem handledCodes_handleErrorEv (e : GoErrVal) (ctx : GoMap)
    (code resolution stack : String) :
    handledCodes (handleErrorEv (some e) ctx code resolution stack) =
      [code] := rfl

theorem retryAux_zero (op : String) (fn : Nat → GoErr) (M : Int)
    (b : Nat) (ctx : GoMap) (att : Nat) (lastErr : GoErr) :
    retryAux op fn M b ctx 0 att lastErr = (lastErr, []) := rfl

theorem retryAux_step_ok (op : String) (fn : Nat → GoErr) (M : Int)
    (b : Nat) (ctx : GoMap) (rem att : Nat) (lastErr : GoErr)
    (he : fn att = none) :
    retryAux op fn M b ctx (rem + 1) att lastErr =
      (none, attemptEv op att M ctx ++ [.invoke att none] ++
        successEv op att ctx) := by
  rw [retryAux, he]

theorem retryAux_step_last (op : String) (fn : Nat → GoErr) (M : Int)
    (b : Nat) (ctx : GoMap) (att : Nat) (lastErr : GoErr) (e : GoErrVal)
    (he : fn att = some e) :
    retryAux op fn M b ctx 1 att lastErr =
      (some e, attemptEv op att M ctx ++ [.invoke att (some e)] ++
        handleErrorEv (some e) ctx "MAX_RETRIES_EXCEEDED"
          maxRetriesResolution "") := by
  rw [retryAux, he]
  rfl

theorem retryAux_step_fail (op : String) (fn : Nat → GoErr) (M : Int)
    (b : Nat) (ctx : GoMap) (r2 att : Nat) (lastErr : GoErr) (e : GoErrVal)
    (he : fn att = some e) :
    retryAux op fn M b ctx (r2 + 1 + 1) att lastErr =
      ((retryAux op fn M b ctx (r2 + 1) (att + 1) (some e)).1,
       attemptEv op att M ctx ++ [.invoke att (some e)] ++
         handleRetryableEv e att M (b * att) ctx ++
         [.sleepFor (b * att)] ++
         (retryAux op fn M b ctx (r2 + 1) (att + 1) (some e)).2) := by
  rw [retryAux, he]
  rfl

theorem retryAux_all_fail (op : String) (fn : Nat → GoErr) (M : Int)
    (b : Nat) (ctx : GoMap) (rem : Nat) :
    ∀ (att : Nat) (lastErr : GoErr),
    (∀ i, i < rem → fn (att + i) ≠ none) →
    (retryAux op fn M b ctx rem att lastErr).1 =
      (if rem = 0 then lastErr else fn (att + rem - 1)) ∧
    invocationsOf (retryAux op fn M b ctx rem att lastErr).2 =
      natsFrom att rem ∧
    sleepsOf (retryAux op fn M b ctx rem att lastErr).2 =
      (natsFrom att (rem - 1)).map (b * ·) ∧
    handledCodes (retryAux op fn M b ctx rem att lastErr).2 =
      (if rem = 0 then [] else ["MAX_RETRIES_EXCEEDED"]) := by
  induction rem with
  | zero =>
      intro att lastErr hf
      rw [retryAux_zero]
      exact ⟨rfl, rfl, rfl, rfl⟩
  | succ r ih =>
      intro att lastErr hf
      have h0 : fn att ≠ none := by
        have := hf 0 (by omega)
        simpa using this
      obtain ⟨e, he⟩ : ∃ e, fn att = some e := by
        cases hfa : fn att with
        | none => exact absurd hfa h0
        | some e => exact ⟨e, rfl⟩
      by_cases hr : r = 0
      · subst hr
        rw [retryAux_step_last op fn M b ctx att lastErr e he]
        exact ⟨by simp [he], rfl, rfl, rfl⟩
      · obtain ⟨r3, rfl⟩ := Nat.exists_eq_succ_of_ne_zero hr
        have hf2 : ∀ i, i < r3 + 1 → fn (att + 1 + i) ≠ none := by
          intro i hi
          have := hf (i + 1) (by omega)
          have heq : att + (i + 1) = att + 1 + i := by omega
          rwa [heq] at this
        have IH := ih (att + 1) (some e) hf2
        rw [retryAux_step_fail op fn M b ctx r3 att lastErr e he]
        refine ⟨?_, ?_, ?_, ?_⟩
        · rw [IH.1, if_neg (Nat.succ_ne_zero r3)]
          exact congrArg fn (by omega)
        · simp only [invocationsOf_append, invocationsOf_attemptEv,
            invocationsOf_handleRetryableEv, IH.2.1]
          simp [invocationsOf, natsFrom]
        · simp only [sleepsOf_append, sleepsOf_attemptEv,
            sleepsOf_handleRetryableEv, IH.2.2.1]
          simp [sleepsOf, natsFrom]
        · simp only [handledCodes_append, handledCodes_attemptEv,
            handledCodes_handleRetryableEv, IH.2.2.2,
            if_neg (Nat.succ_ne_zero r3)]
          simp [handledCodes]

theorem retryAux_first_success (op : String) (fn : Nat → GoErr) (M : Int)
    (b : Nat) (ctx : GoMap) (i0 : Nat) :
    ∀ (rem att : Nat) (lastErr : GoErr), i0 < rem →
    fn (att + i0) = none →
    (∀ i, i < i0 → fn (att + i) ≠ none) →
    (retryAux op fn M b ctx rem att lastErr).1 = none ∧
    invocationsOf (retryAux op fn M b ctx rem att lastErr).2 =
      natsFrom att (i0 + 1) ∧
    sleepsOf (retryAux op fn M b ctx rem att lastErr).2 =
      (natsFrom att i0).map (b * ·) ∧
    handledCodes (retryAux op fn M b ctx rem att lastErr).2 = [] := by
  induction i0 with
  | zero =>
      intro rem att lastErr hlt h0 _
      obtain ⟨r2, rfl⟩ :=
        Nat.exists_eq_succ_of_ne_zero (by omega : rem ≠ 0)
      have he : fn att = none := by simpa using h0
      rw [retryAux_step_ok op fn M b ctx r2 att lastErr he]
      exact ⟨rfl, rfl, rfl, rfl⟩
  | succ j ih =>
      intro rem att lastErr hlt hs hmin
      obtain ⟨r2, rfl⟩ :=
        Nat.exists_eq_succ_of_ne_zero (by omega : rem ≠ 0)
      have h0 : fn att ≠ none := by
        have := hmin 0 (by omega)
        simpa using this
      obtain ⟨e, he⟩ : ∃ e, fn att = some e := by
        cases hfa : fn att with
        | none => exact absurd hfa h0
        | some e => exact ⟨e, rfl⟩
      obtain ⟨r3, rfl⟩ :=
        Nat.exists_eq_succ_of_ne_zero (by omega : r2 ≠ 0)
      have hs2 : fn (att + 1 + j) = none := by
        have heq : att + (j + 1) = att + 1 + j := by omega
        rwa [heq] at hs
      have hmin2 : ∀ i, i < j → fn (att + 1 + i) ≠ none := by
        intro i hi
        have := hmin (i + 1) (by omega)
        have heq : att + (i + 1) = att + 1 + i := by omega
        rwa [heq] at this
      have IH := ih (r3 + 1) (att + 1) (some e) (by omega) hs2 hmin2
      rw [retryAux_step_fail op fn M b ctx r3 att lastErr e he]
      refine ⟨IH.1, ?_, ?_, ?_⟩
      · simp only [invocationsOf_append, invocationsOf_attemptEv,
          invocationsOf_handleRetryableEv, IH.2.1]
        simp [invocationsOf, natsFrom]
      · simp only [sleepsOf_append, sleepsOf_attemptEv,
          sleepsOf_handleRetryableEv, IH.2.2.1]
        simp [sleepsOf, natsFrom]
      · simp only [handledCodes_append, handledCodes_attemptEv,
          handledCodes_handleRetryableEv, IH.2.2.2]
        simp [handledCodes]

theorem C6_context_roundtrip_witness :
    KeysNodup ((New Store.empty .INFO).1.read
      (New Store.empty .INFO).2.fields) ∧
    (mapGet (VibeLogger.log (New Store.empty .INFO).1
      (New Store.empty .INFO).2 exEnv .INFO "m"
      [strField "a" "x"]).1.context "a").isSome :=
  ⟨by decide,
    (C6_context_roundtrip (New Store.empty .INFO).1 (New Store.empty .INFO).2
      exEnv .INFO "m" [strField "a" "x"] "a" (.vInt 1) (.vInt 2)
      (by decide)).1 (strField "a" "x") (by simp)⟩

/-- C7: with a positive attempt budget, `ExecuteWithRetry` invokes the
operation on consecutive attempts 1, 2, ... until its first success and
at most maxAttempts times; it returns nil exactly when some invocation
among the first maxAttempts succeeds; when every attempt fails it
returns the final attempt's error after routing it to `HandleError`
with code MAX_RETRIES_EXCEEDED; and the sleep before retry k+1 is
`backoff * k` (linear backoff). -/
theorem C7_execute_with_retry (op : String) (fn : Nat → GoErr) (M : Int)
    (b : Nat) (ctx : GoMap) (h : 1 ≤ M) :
    (∀ i0, i0 < M.toNat → fn (1 + i0) = none →
      (∀ i, i < i0 → fn (1 + i) ≠ none) →
      ((executeWithRetry op fn M b ctx).1 = none ∧
       invocationsOf (executeWithRetry op fn M b ctx).2 =
         natsFrom 1 (i0 + 1) ∧
       sleepsOf (executeWithRetry op fn M b ctx).2 =
         (natsFrom 1 i0).map (b * ·) ∧
       handledCodes (executeWithRetry op fn M b ctx).2 = [])) ∧
    ((∀ i, i < M.toNat → fn (1 + i) ≠ none) →
      ((executeWithRetry op fn M b ctx).1 = fn M.toNat ∧
       fn M.toNat ≠ none ∧
       invocationsOf (executeWithRetry op fn M b ctx).2 =
         natsFrom 1 M.toNat ∧
       sleepsOf (executeWithRetry op fn M b ctx).2 =
         (natsFrom 1 (M.toNat - 1)).map (b * ·) ∧
       handledCodes (executeWithRetry op fn M b ctx).2 =
         ["MAX_RETRIES_EXCEEDED"])) ∧
    ((executeWithRetry op fn M b ctx).1 = none ↔
      ∃ k, 1 ≤ k ∧ k ≤ M.toNat ∧ fn k = none) := by
  have hM : 1 ≤ M.toNat := by omega
  refine ⟨?_, ?_, ?_⟩
  · intro i0 hi0 hs hmin
    exact retryAux_first_success op fn M b ctx i0 M.toNat 1 none hi0 hs hmin
  · intro hall
    unfold executeWithRetry
    have H := retryAux_all_fail op fn M b ctx M.toNat 1 none hall
    refine ⟨?_, ?_, H.2.1, H.2.2.1, ?_⟩
    · rw [H.1, if_neg (by omega : ¬M.toNat = 0)]
      exact congrArg fn (by omega)
    · have h2 := hall (M.toNat - 1) (by omega)
      have heq : 1 + (M.toNat - 1) = M.toNat := by omega
      rwa [heq] at h2
    · rw [H.2.2.2, if_neg (by omega : ¬M.toNat = 0)]
  · constructor
    · intro hres
      by_contra hnex
      push_neg at hnex
      have hall : ∀ i, i < M.toNat → fn (1 + i) ≠ none := by
        intro i hi hcon
        exact hnex (1 + i) (by omega) (by omega) hcon
      have H := retryAux_all_fail op fn M b ctx M.toNat 1 none hall
      have h1 := H.1
      rw [if_neg (by omega : ¬M.toNat = 0),
        show (1 : Nat) + M.toNat - 1 = M.toNat by omega] at h1
      have h2 := hall (M.toNat - 1) (by omega)
      rw [show (1 : Nat) + (M.toNat - 1) = M.toNat by omega] at h2
      exact h2 (h1.symm.trans hres)
    · rintro ⟨k, hk1, hk2, hkn⟩
      have hP : ∃ i, fn (1 + i) = none :=
        ⟨k - 1, by rw [show (1 : Nat) + (k - 1) = k by omega]; exact hkn⟩
      have hfind := Nat.find_spec hP
      have hmin : ∀ i, i < Nat.find hP → fn (1 + i) ≠ none := fun i hi =>
        Nat.find_min hP hi
      have hi0 : Nat.find hP < M.toNat := by
        have hle : Nat.find hP ≤ k - 1 := Nat.find_min' hP
          (by rw [show (1 : Nat) + (k - 1) = k by omega]; exact hkn)
        omega
      exact (retryAux_first_success op fn M b ctx (Nat.find hP) M.toNat 1
        none hi0 hfind hmin).1

/-- An operation stream whose second invocation succeeds and all others
fail. -/
def exRetryFn : Nat → GoErr :=
  fun k => if k = 2 then none else some ⟨"boom", "errT"⟩

theorem C7_execute_with_retry_witness :
    (1 : Int) ≤ 3 ∧ (executeWithRetry "op" exRetryFn 3 10 []).1 = none :=
  ⟨by decide,
    ((C7_execute_with_retry "op" exRetryFn 3 10 [] (by decide)).2.2).mpr
      ⟨2, by decide, by decide, by decide⟩⟩

/-- C8: `ExecuteWithRecovery` returns nil when the operation succeeds
and then never invokes the recovery function; when the operation fails
with error e and the recovery function applied to e succeeds, the
original error e is still returned (with no handled-error event); when
the recovery function fails with error re, the failure is routed to
`HandleError` with code RECOVERY_FAILED and re is returned. -/
theorem C8_execute_with_recovery (op : String) (ctx : GoMap)
    (e : GoErrVal) (g : GoErrVal → GoErr)
    (recoveryFn : Option (GoErrVal → GoErr)) :
    ((executeWithRecovery op none recoveryFn ctx).1 = none ∧
     recoveriesOf (executeWithRecovery op none recoveryFn ctx).2 = []) ∧
    (g e = none →
      ((executeWithRecovery op (some e) (some g) ctx).1 = some e ∧
       handledCodes (executeWithRecovery op (some e) (some g) ctx).2 =
         [])) ∧
    (∀ re, g e = some re →
      ((executeWithRecovery op (some e) (some g) ctx).1 = some re ∧
       handledCodes (executeWithRecovery op (some e) (some g) ctx).2 =
         ["RECOVERY_FAILED"])) := by
  refine ⟨⟨rfl, rfl⟩, ?_, ?_⟩
  · intro hge
    constructor
    · simp only [executeWithRecovery, hge]
    · simp only [executeWithRecovery, hge]
      rfl
  · intro re hre
    constructor
    · simp only [executeWithRecovery, hre]
    · simp only [executeWithRecovery, hre]
      rfl

theorem C8_execute_with_recovery_witness :
    ((fun _ : GoErrVal => (none : GoErr)) ⟨"boom", "errT"⟩ = none) ∧
    (executeWithRecovery "op" (some ⟨"boom", "errT"⟩)
      (some fun _ => none) []).1 = some ⟨"boom", "errT"⟩ :=
  ⟨rfl,
    ((C8_execute_with_recovery "op" [] ⟨"boom", "errT"⟩ (fun _ => none)
      none).2.1 rfl).1⟩

/-- C10: with a non-positive attempt budget the loop condition
`attempt <= maxAttempts` fails immediately, so `ExecuteWithRetry`
returns nil without invoking the operation and without emitting any
event. -/
theorem C10_nonpositive_attempts (op : String) (fn : Nat → GoErr)
    (M : Int) (b : Nat) (ctx : GoMap) (h : M ≤ 0) :
    executeWithRetry op fn M b ctx = (none, []) := by
  have h0 : M.toNat = 0 := by omega
  show retryAux op fn M b ctx M.toNat 1 none = (none, [])
  rw [h0, retryAux_zero]

theorem C10_nonpositive_attempts_witness :
    (-1 : Int) ≤ 0 ∧
    executeWithRetry "op" (fun _ => some ⟨"boom", "errT"⟩) (-1) 5 [] =
      (none, []) :=
  ⟨by decide,
    C10_nonpositive_attempts "op" (fun _ => some ⟨"boom", "errT"⟩) (-1) 5
      [] (by decide)⟩

end VibeLog
